import Mathlib

/-!
Verification of the action discovery-and-navigation engine of tfUtils.

The Python code under `src/lib` is shallowly embedded:
Python strings become lists of Unicode code points (`PyStr`),
`InterfacePath`, `InterfaceReference`, the loader functions and the
viewer's event handlers become Lean structures and functions, and the
mutable viewer state (current path, working directory, which callbacks
have run) is threaded explicitly through a `ViewerState` record.
-/

namespace TfUtils

/-- Python strings, modeled as lists of Unicode code points.
Frequent codes: `45` is the hyphen, `47` the forward slash,
`92` the backslash, `95` the underscore. -/
abbrev PyStr := List Nat

/-- One step of `str.lower()` on a single code point: ASCII uppercase
letters (65-90) are shifted to lowercase; everything else is unchanged. -/
def lowerChar (c : Nat) : Nat := if 65 ≤ c ∧ c ≤ 90 then c + 32 else c

/-- `path.replace("\\\\", "/")`: left-to-right, non-overlapping replacement
of two consecutive backslashes (92) by one forward slash (47). -/
def replaceDoubleBackslash : PyStr → PyStr
  | 92 :: 92 :: rest => 47 :: replaceDoubleBackslash rest
  | c :: rest => c :: replaceDoubleBackslash rest
  | [] => []

/-- `str.replace` with a one-character pattern and replacement. -/
def replaceChar (a b : Nat) (s : PyStr) : PyStr :=
  s.map (fun c => if c = a then b else c)

/-- The character class kept by `re.sub(r"[^a-zA-Z0-9-]", "", path)`:
lowercase letters, uppercase letters, digits, and the hyphen. -/
def isAllowedChar (c : Nat) : Bool :=
  decide ((97 ≤ c ∧ c ≤ 122) ∨ (65 ≤ c ∧ c ≤ 90) ∨ (48 ≤ c ∧ c ≤ 57) ∨ c = 45)

/-- `InterfacePath.sanitize_path`: lowercase, `"\\\\" -> "/"`,
`"\\" -> "/"`, `"-" -> "_"`, `"/" -> "-"`, then drop every character
outside `[a-zA-Z0-9-]`. -/
def sanitize_path (s : PyStr) : PyStr :=
  ((((replaceDoubleBackslash (s.map lowerChar)).map
      (fun c => if c = 92 then 47 else c)).map
      (fun c => if c = 45 then 95 else c)).map
      (fun c => if c = 47 then 45 else c)).filter isAllowedChar

example : sanitize_path [97, 47, 98] = [97, 45, 98] := by decide
example : sanitize_path (sanitize_path [97, 47, 98]) = [97, 98] := by decide
example : sanitize_path [82, 111, 111, 116] = [114, 111, 111, 116] := by decide

/-- `InterfacePath`: keeps the raw constructor argument (`original_path`);
the sanitized form is derived by `InterfacePath.path`. -/
structure InterfacePath where
  original_path : PyStr
deriving DecidableEq, Repr

/-- The `path` attribute, set by `_set_path` in the constructor:
the sanitized form of `original_path`.  `str(p)` returns this. -/
def InterfacePath.path (p : InterfacePath) : PyStr :=
  sanitize_path p.original_path

/-- `InterfacePath.__eq__`: equality compares the sanitized `path` fields. -/
def ipEq (p q : InterfacePath) : Prop := p.path = q.path

instance (p q : InterfacePath) : Decidable (ipEq p q) := by
  unfold ipEq; infer_instance

/-- `InterfacePath.__truediv__`: builds
`InterfacePath(f"{self.original_path}/{other.original_path}")`. -/
def InterfacePath.div (p q : InterfacePath) : InterfacePath :=
  ⟨p.original_path ++ 47 :: q.original_path⟩

/-- `InterfacePath.parent`: builds
`InterfacePath("/".join(self.original_path.split("/")[:-1]))`. -/
def InterfacePath.parent (p : InterfacePath) : InterfacePath :=
  ⟨List.intercalate [47] ((p.original_path.splitOn 47).dropLast)⟩

/-- The string `"root"`, the viewer's starting path. -/
def rootStr : PyStr := [114, 111, 111, 116]

/-- The root path `InterfacePath("root")` (class attribute `InterfaceViewer.path`). -/
def rootPath : InterfacePath := ⟨rootStr⟩

example : rootPath.path = rootStr := by decide
example : rootPath.parent = ⟨[]⟩ := by decide

/-- Splitting at an explicit separator occurrence splits the two halves:
`(l1 ++ 47 :: l2).splitOn 47 = l1.splitOn 47 ++ l2.splitOn 47`. -/
theorem splitOn_append_sep (l1 l2 : List Nat) :
    (l1 ++ 47 :: l2).splitOn 47 = l1.splitOn 47 ++ l2.splitOn 47 := by
  induction l1 with
  | nil =>
      simp [List.splitOn, List.splitOnP_cons]
  | cons a l1 ih =>
      by_cases ha : a = 47
      · subst ha
        simp only [List.cons_append, List.splitOn, List.splitOnP_cons] at *
        simp [ih]
      · simp only [List.cons_append, List.splitOn, List.splitOnP_cons] at *
        have hne : ¬((a == 47) = true) := by simp [ha]
        simp only [if_neg hne, ih]
        have h1 : l1.splitOnP (· == 47) ≠ [] := List.splitOnP_ne_nil _ l1
        cases h : l1.splitOnP (· == 47) with
        | nil => exact absurd h h1
        | cons x xs => simp [List.modifyHead]

/-- A list without the separator splits into itself alone. -/
theorem splitOn_eq_single (l : List Nat) (h : 47 ∉ l) : l.splitOn 47 = [l] := by
  unfold List.splitOn
  refine List.splitOnP_eq_single _ _ ?_
  intro x hx
  simp only [beq_iff_eq]
  exact fun hc => h (hc ▸ hx)

/-- Child composition followed by `parent` restores the left operand's
original path, provided the appended segment contains no slash. -/
theorem parent_div (p q : InterfacePath) (h : 47 ∉ q.original_path) :
    ((p.div q).parent).original_path = p.original_path := by
  unfold InterfacePath.div InterfacePath.parent
  simp only [splitOn_append_sep, splitOn_eq_single q.original_path h,
    List.dropLast_concat]
  exact List.intercalate_splitOn p.original_path 47

/-- A code point that can occur in a sanitized path: lowercase letter,
digit, or hyphen. -/
def cleanChar (c : Nat) : Prop :=
  (97 ≤ c ∧ c ≤ 122) ∨ (48 ≤ c ∧ c ≤ 57) ∨ c = 45

/-- `lowerChar` never produces an ASCII uppercase letter. -/
theorem lowerChar_not_upper (c : Nat) :
    ¬(65 ≤ lowerChar c ∧ lowerChar c ≤ 90) := by
  unfold lowerChar; split <;> omega

/-- Replacing a non-92 head commutes with `replaceDoubleBackslash`. -/
theorem replaceDoubleBackslash_cons_ne (a : Nat) (t : PyStr) (ha : a ≠ 92) :
    replaceDoubleBackslash (a :: t) = a :: replaceDoubleBackslash t := by
  rw [replaceDoubleBackslash.eq_def]
  split
  · rename_i rest heq
    exact absurd (by injection heq) ha
  · rename_i c rest heq
    injection heq with h1 h2
    subst h1; subst h2; rfl
  · rename_i heq
    exact absurd heq (List.cons_ne_nil a t)

/-- Every element of `replaceDoubleBackslash l` is the inserted slash
or an element of `l`. -/
theorem mem_replaceDoubleBackslash (c : Nat) (l : PyStr)
    (h : c ∈ replaceDoubleBackslash l) : c = 47 ∨ c ∈ l := by
  induction l using replaceDoubleBackslash.induct with
  | case1 rest ih =>
      rw [replaceDoubleBackslash] at h
      rcases List.mem_cons.mp h with h | h
      · exact Or.inl h
      · rcases ih h with h | h
        · exact Or.inl h
        · exact Or.inr (by simp [h])
  | case2 a rest hne ih =>
      rw [replaceDoubleBackslash.eq_def] at h
      split at h
      · rename_i r heq
        injection heq with h1 h2
        exact absurd h2 (fun hh => hne r h1 hh)
      · rename_i c' r heq
        injection heq with h1 h2
        subst h1; subst h2
        rcases List.mem_cons.mp h with h | h
        · exact Or.inr (List.mem_cons.mpr (Or.inl h))
        · rcases ih h with h | h
          · exact Or.inl h
          · exact Or.inr (List.mem_cons.mpr (Or.inr h))
      · rename_i heq
        exact absurd heq (List.cons_ne_nil a rest)
  | case3 =>
      rw [replaceDoubleBackslash] at h
      exact absurd h (List.not_mem_nil c)

/-- Every code point of a sanitized path is clean: sanitization
lowercases before filtering, so no uppercase letter survives, and the
filter keeps only letters, digits and hyphens. -/
theorem mem_sanitize_clean (s : PyStr) :
    ∀ c ∈ sanitize_path s, cleanChar c := by
  intro c hc
  unfold sanitize_path at hc
  obtain ⟨hc5, hallow⟩ := List.mem_filter.mp hc
  have hnu : ¬(65 ≤ c ∧ c ≤ 90) := by
    obtain ⟨d4, hd4, rfl⟩ := List.mem_map.mp hc5
    obtain ⟨d3, hd3, rfl⟩ := List.mem_map.mp hd4
    obtain ⟨d2, hd2, rfl⟩ := List.mem_map.mp hd3
    rcases mem_replaceDoubleBackslash _ _ hd2 with h47 | hmem
    · subst h47
      decide
    · obtain ⟨e, he, rfl⟩ := List.mem_map.mp hmem
      have hl := lowerChar_not_upper e
      split_ifs <;> omega
  unfold cleanChar
  simp only [isAllowedChar, decide_eq_true_eq] at hallow
  omega

/-- Applying `sanitize_path` to an already-clean string turns each
hyphen into an underscore and then strips it; everything else is kept.
So a second sanitization pass is exactly a hyphen-removal pass. -/
theorem sanitize_path_clean (y : PyStr) (h : ∀ c ∈ y, cleanChar c) :
    sanitize_path y = y.filter (fun c => decide (c ≠ 45)) := by
  induction y with
  | nil => rfl
  | cons a l ih =>
      have ha := h a (List.mem_cons_self a l)
      have ih' := ih (fun c hc => h c (List.mem_cons_of_mem a hc))
      unfold cleanChar at ha
      have ha92 : a ≠ 92 := by omega
      have hal : lowerChar a = a := by
        unfold lowerChar
        rw [if_neg (by omega)]
      unfold sanitize_path at ih' ⊢
      simp only [List.map_cons, hal,
        replaceDoubleBackslash_cons_ne a _ ha92, List.filter_cons]
      rcases ha with ⟨h1, h2⟩ | ⟨h1, h2⟩ | rfl
      · have e1 : (if a = 92 then 47 else a) = a := if_neg ha92
        have e2 : (if a = 45 then 95 else a) = a := if_neg (by omega)
        have e3 : (if a = 47 then 45 else a) = a := if_neg (by omega)
        have e4 : isAllowedChar a = true := by
          simp only [isAllowedChar, decide_eq_true_eq]; omega
        have e5 : decide (a ≠ 45) = true := by simp; omega
        simp only [e1, e2, e3, e4, e5, if_pos]
        exact congrArg (a :: ·) ih'
      · have e1 : (if a = 92 then 47 else a) = a := if_neg ha92
        have e2 : (if a = 45 then 95 else a) = a := if_neg (by omega)
        have e3 : (if a = 47 then 45 else a) = a := if_neg (by omega)
        have e4 : isAllowedChar a = true := by
          simp only [isAllowedChar, decide_eq_true_eq]; omega
        have e5 : decide (a ≠ 45) = true := by simp; omega
        simp only [e1, e2, e3, e4, e5, if_pos]
        exact congrArg (a :: ·) ih'
      · simp only [if_pos rfl, show (45 : Nat) ≠ 92 by decide,
          if_neg, show ((95 : Nat) = 47) = False by simp, if_false,
          show isAllowedChar 95 = false by decide,
          show decide ((45 : Nat) ≠ 45) = false by decide,
          Bool.false_eq_true, ite_false]
        exact ih'

/-- C1: the claim that `sanitize_path` is idempotent is false: on the
input `"a/b"` one pass yields `"a-b"` and a second pass yields `"ab"`. -/
theorem c1_sanitize_not_idempotent_counterexample :
    sanitize_path (sanitize_path [97, 47, 98]) ≠ sanitize_path [97, 47, 98] := by
  decide

/-- C1 (amended): a second `sanitize_path` pass removes every hyphen
from the first pass's output (hyphens are mapped to underscores and then
stripped); consequently sanitization is idempotent exactly on inputs
whose sanitized form contains no hyphen. -/
theorem c1_sanitize_double_pass (x : PyStr) :
    sanitize_path (sanitize_path x)
      = (sanitize_path x).filter (fun c => decide (c ≠ 45)) ∧
    (45 ∉ sanitize_path x →
      sanitize_path (sanitize_path x) = sanitize_path x) := by
  refine ⟨sanitize_path_clean _ (mem_sanitize_clean x), fun h45 => ?_⟩
  rw [sanitize_path_clean _ (mem_sanitize_clean x)]
  refine List.filter_eq_self.mpr fun a ha => ?_
  simp only [decide_eq_true_eq]
  exact fun hc => h45 (hc ▸ ha)

/-- C1 (amended) witness: on `"ab"` (no separators, hence no hyphen in
the sanitized form) sanitization is idempotent. -/
theorem c1_sanitize_double_pass_witness :
    sanitize_path (sanitize_path [97, 98]) = sanitize_path [97, 98] :=
  (c1_sanitize_double_pass [97, 98]).2 (by decide)

/-- C9 counterexample: `parent()` of the root path `InterfacePath("root")`
is `InterfacePath("")`, which is not equal to root (sanitized `""` vs
`"root"`), so root is not a fixed point of `parent`. -/
theorem c9_parent_root_counterexample : ¬ ipEq rootPath.parent rootPath := by
  decide

/-- C9 (amended): `parent()` removes exactly the last `/`-separated
segment of the original path (composing a slash-free segment and taking
`parent` is the identity); but `parent()` of the root path returns the
empty path, not root — the empty path, not root, is the fixed point. -/
theorem c9_parent_removes_last_segment :
    (∀ p q : InterfacePath, 47 ∉ q.original_path →
      ((p.div q).parent).original_path = p.original_path) ∧
    rootPath.parent = ⟨[]⟩ ∧
    InterfacePath.parent ⟨[]⟩ = ⟨[]⟩ := by
  refine ⟨parent_div, by decide, by decide⟩

/-- C9 witness: composing `"root"` with the segment `"x"` and taking
`parent` returns to `"root"`. -/
theorem c9_parent_removes_last_segment_witness :
    ((rootPath.div ⟨[120]⟩).parent).original_path = rootPath.original_path :=
  c9_parent_removes_last_segment.1 rootPath ⟨[120]⟩ (by decide)

/-- `InterfaceReference`: a descriptor for one action or folder node.
The callback is modeled by its effect on the process working directory
(a function from the cwd before the call to the cwd after it);
`none` models a pure folder node (`call_back=None`). -/
structure InterfaceReference where
  path : InterfacePath
  name : PyStr
  description : PyStr
  call_back : Option (PyStr → PyStr) := none
  active : Bool := true

/-- The list-item identity key used by the viewer:
`str(reference.path / InterfacePath(reference.name))`. -/
def refId (r : InterfaceReference) : PyStr :=
  (r.path.div ⟨r.name⟩).path

/-- `InterfaceViewer._get_reference_by_id`: linear scan over
`self.references`, returning the first reference whose key equals
`reference_id`, or `None`. -/
def get_reference_by_id :
    List InterfaceReference → PyStr → Option InterfaceReference
  | [], _ => none
  | r :: rest, rid =>
      if refId r = rid then some r else get_reference_by_id rest rid

/-- C10: `_get_reference_by_id` is first-match lookup in list order:
it returns `none` exactly when no reference's key matches, and when it
returns a reference, that reference matches the key and sits at an index
before which no reference matches — so of two references sharing one
normalized key, every lookup yields the earlier one. -/
theorem c10_get_reference_first_match
    (refs : List InterfaceReference) (rid : PyStr) :
    (get_reference_by_id refs rid = none ↔ ∀ r ∈ refs, refId r ≠ rid) ∧
    (∀ r, get_reference_by_id refs rid = some r →
      refId r = rid ∧ ∃ i, ∃ h : i < refs.length, refs.get ⟨i, h⟩ = r ∧
        ∀ k (hk : k < refs.length), k < i → refId (refs.get ⟨k, hk⟩) ≠ rid) := by
  induction refs with
  | nil =>
      refine ⟨by simp [get_reference_by_id], fun r h => ?_⟩
      simp [get_reference_by_id] at h
  | cons a l ih =>
      constructor
      · unfold get_reference_by_id
        split
        · rename_i heq
          simp only [iff_false_intro (Option.some_ne_none a), false_iff]
          intro hall
          exact hall a (List.mem_cons_self a l) heq
        · rename_i hne
          rw [ih.1]
          constructor
          · intro hall r hr
            rcases List.mem_cons.mp hr with rfl | hr
            · exact hne
            · exact hall r hr
          · intro hall r hr
            exact hall r (List.mem_cons_of_mem a hr)
      · intro r hr
        unfold get_reference_by_id at hr
        split at hr
        · rename_i heq
          obtain rfl := Option.some.inj hr
          refine ⟨heq, 0, by simp, rfl, fun k hk hk0 => absurd hk0 (by omega)⟩
        · rename_i hne
          obtain ⟨hkey, i, hi, hget, hbefore⟩ := (ih.2 r hr)
          refine ⟨hkey, i + 1, by simpa using Nat.succ_lt_succ hi, by simpa using hget,
            ?_⟩
          intro k hk hki
          cases k with
          | zero => simpa using hne
          | succ k' =>
              have hk' : k' < l.length := by simpa using hk
              have := hbefore k' hk' (by omega)
              simpa using this

/-- An action reference at original path `"root/A"` (uppercase). -/
def refA : InterfaceReference :=
  ⟨⟨[114, 111, 111, 116, 47, 65]⟩, [120], [], none, true⟩

/-- An action reference at original path `"root/a"` (lowercase),
colliding with `refA` after sanitization. -/
def refB : InterfaceReference :=
  ⟨⟨[114, 111, 111, 116, 47, 97]⟩, [120], [], none, false⟩

/-- C10 witness: `"root/A"` and `"root/a"` collide after sanitization,
so `refA` and `refB` share one key; lookup of that key returns the
earlier reference `refA`, and the theorem yields that its key matches. -/
theorem c10_get_reference_first_match_witness :
    get_reference_by_id [refA, refB] (refId refB) = some refA ∧
    refId refA = refId refB := by
  have h := (c10_get_reference_first_match [refA, refB] (refId refB)).2
    refA (by rfl)
  exact ⟨by rfl, h.1⟩

/-- One entry of the viewer's list widget: the rendered label, the
description shown in the info pane (the widget's `name` attribute),
and the item id. -/
structure RListItem where
  label : PyStr
  descr : PyStr
  id : PyStr
deriving DecidableEq, Repr

/-- The literal `" [red](inactive)[/red]"` appended to the label of an
inactive reference. -/
def inactiveSuffix : PyStr :=
  [32, 91, 114, 101, 100, 93, 40, 105, 110, 97, 99, 116, 105, 118, 101,
   41, 91, 47, 114, 101, 100, 93]

/-- The id `"back"` of the synthesized back entry. -/
def backId : PyStr := [98, 97, 99, 107]

/-- The synthesized back entry: label `"← Back"`, description
`"Go back to the previous menu."`, id `"back"`. -/
def backItem : RListItem :=
  ⟨[8592, 32, 66, 97, 99, 107],
   [71, 111, 32, 98, 97, 99, 107, 32, 116, 111, 32, 116, 104, 101, 32,
    112, 114, 101, 118, 105, 111, 117, 115, 32, 109, 101, 110, 117, 46],
   backId⟩

/-- The list item mounted for one reference: the label is the name,
extended with the inactive marker when `active` is false; the
description becomes the `name` attribute; the id is the reference key. -/
def mkItem (r : InterfaceReference) : RListItem :=
  ⟨r.name ++ (if r.active then [] else inactiveSuffix), r.description, refId r⟩

/-- The `for` loop of `_update_reference_viewer`: in list order, one
item per reference whose `path.parent() == self.path`. -/
def renderItems : List InterfaceReference → InterfacePath → List RListItem
  | [], _ => []
  | r :: rest, p =>
      (if ipEq (r.path.parent) p then [mkItem r] else []) ++ renderItems rest p

/-- `InterfaceViewer._update_reference_viewer`: the items of the list
widget — a back entry when `str(self.path) != "root"`, then the
per-reference items. -/
def update_reference_viewer
    (refs : List InterfaceReference) (p : InterfacePath) : List RListItem :=
  (if p.path ≠ rootStr then [backItem] else []) ++ renderItems refs p

/-- The loop renders exactly the references whose parent path equals
the current path, in list order. -/
theorem renderItems_eq (refs : List InterfaceReference) (p : InterfacePath) :
    renderItems refs p
      = (refs.filter fun r => decide (ipEq (r.path.parent) p)).map mkItem := by
  induction refs with
  | nil => rfl
  | cons r rest ih =>
      unfold renderItems
      rw [List.filter_cons]
      by_cases h : ipEq (r.path.parent) p
      · simp [h, ih]
      · simp [h, ih]

/-- C2: the tree view at path `p` renders exactly the references whose
`path.parent()` equals `p` (in list order), preceded by the synthesized
back entry exactly when `p` is not the root path. -/
theorem c2_update_reference_viewer
    (refs : List InterfaceReference) (p : InterfacePath) :
    update_reference_viewer refs p
      = (if ipEq p rootPath then [] else [backItem]) ++
        (refs.filter fun r => decide (ipEq (r.path.parent) p)).map mkItem := by
  unfold update_reference_viewer
  rw [renderItems_eq]
  congr 1
  by_cases h : ipEq p rootPath
  · rw [if_pos h, if_neg]
    intro hne
    exact hne h
  · rw [if_neg h, if_pos]
    intro heq
    exact h heq

/-- `InterfaceInfo` (loader): the record built by the scanner for one
tagged function.  The activation predicate `_ACTIVATE` is a live check
whose result may depend on external state (drive availability etc.);
that dependence is modeled by the `Nat` instant at which the predicate
is called. -/
structure InterfaceInfo where
  name : PyStr
  path : PyStr
  description : PyStr
  is_active : Nat → Bool
  call_back : PyStr → PyStr

/-- The `f"root/{interface_info.path}"` prefix applied by the loader. -/
def rootSlash (p : PyStr) : PyStr := rootStr ++ 47 :: p

/-- `create_interface_references`, executed at instant `t0`: one
`InterfaceReference` per info, with `active=interface_info.is_active()`
— the predicate is called once, here, and its boolean result stored. -/
def create_interface_references
    (infos : List InterfaceInfo) (t0 : Nat) : List InterfaceReference :=
  infos.map fun i =>
    ⟨⟨rootSlash i.path⟩, i.name, i.description, some i.call_back, i.is_active t0⟩

/-- A render of the tree view at instant `t`: the widget items are a
function of the stored references alone; the render instant plays no
part in `_update_reference_viewer`. -/
def render_at (refs : List InterfaceReference) (p : InterfacePath)
    (_t : Nat) : List RListItem :=
  update_reference_viewer refs p

/-- An info whose live activation predicate is true at instant 0 and
false afterwards. -/
def infoLive : InterfaceInfo :=
  ⟨[120], [121], [], fun t => decide (t = 0), id⟩

/-- C3 counterexample: with references created at instant 0 from a
predicate that is true at instant 0 and false at instant 1, the renders
at instants 0 and 1 are identical — the item still shows no inactive
marker at instant 1 although the predicate's result changed, because
`create_interface_references` evaluated the predicate once and stored
the boolean. -/
theorem c3_active_cached_counterexample :
    infoLive.is_active 0 ≠ infoLive.is_active 1 ∧
    render_at (create_interface_references [infoLive] 0) rootPath 1
      = render_at (create_interface_references [infoLive] 0) rootPath 0 ∧
    render_at (create_interface_references [infoLive] 0) rootPath 1
      = [⟨[120], [], refId ⟨⟨rootSlash [121]⟩, [120], [], some id, true⟩⟩] := by
  refine ⟨by decide, rfl, by decide⟩

/-- C3 (amended): the activation predicate is evaluated exactly once,
at reference-creation time; each reference stores the boolean the
predicate returned at that instant, and rendering is independent of the
render instant. -/
theorem c3_active_evaluated_once (infos : List InterfaceInfo) (t0 : Nat)
    (p : InterfacePath) (t t' : Nat) :
    (create_interface_references infos t0).map (fun r => r.active)
      = infos.map (fun i => i.is_active t0) ∧
    render_at (create_interface_references infos t0) p t
      = render_at (create_interface_references infos t0) p t' := by
  refine ⟨?_, rfl⟩
  simp [create_interface_references]

/-- `InterfaceInfo` with a fallible activation predicate: calling
`_ACTIVATE` may raise (`Except.error` carries the exception message). -/
structure InterfaceInfoE where
  name : PyStr
  path : PyStr
  description : PyStr
  is_active : Unit → Except PyStr Bool
  call_back : PyStr → PyStr

/-- `create_interface_references` over fallible predicates: the list
comprehension calls `interface_info.is_active()` bare — the first
predicate that raises aborts the comprehension and the exception
escapes the function. -/
def create_interface_references_E :
    List InterfaceInfoE → Except PyStr (List InterfaceReference)
  | [] => .ok []
  | i :: rest =>
      match i.is_active () with
      | .error e => .error e
      | .ok a =>
          match create_interface_references_E rest with
          | .error e => .error e
          | .ok refs =>
              .ok (⟨⟨rootSlash i.path⟩, i.name, i.description,
                some i.call_back, a⟩ :: refs)

/-- An info whose activation predicate raises (message `"e"`). -/
def infoRaising : InterfaceInfoE :=
  ⟨[120], [121], [], fun _ => .error [101], id⟩

/-- An info whose activation predicate returns `True`. -/
def infoOk : InterfaceInfoE :=
  ⟨[120], [121], [], fun _ => .ok true, id⟩

/-- C4 counterexample: a raising activation predicate makes
`create_interface_references` itself raise — the exception propagates
out of reference construction instead of the descriptor being treated
as inactive. -/
theorem c4_predicate_exception_counterexample :
    create_interface_references_E [infoRaising] = Except.error [101] := rfl

/-- C4 (amended): reference construction succeeds only when every
activation predicate returns normally; a raising predicate always
propagates (`create_interface_references` has no handler), so a
successful result certifies that no predicate raised. -/
theorem c4_predicate_exception_propagates
    (infos : List InterfaceInfoE) (refs : List InterfaceReference)
    (h : create_interface_references_E infos = .ok refs) :
    ∀ i ∈ infos, ∃ b, i.is_active () = .ok b := by
  induction infos generalizing refs with
  | nil => intro i hi; exact absurd hi (List.not_mem_nil i)
  | cons j rest ih =>
      intro i hi
      unfold create_interface_references_E at h
      cases hj : j.is_active () with
      | error e => rw [hj] at h; exact absurd h (by simp)
      | ok a =>
          rw [hj] at h
          cases hr : create_interface_references_E rest with
          | error e => rw [hr] at h; exact absurd h (by simp)
          | ok tail =>
              rw [hr] at h
              rcases List.mem_cons.mp hi with rfl | hi'
              · exact ⟨a, hj⟩
              · exact ih tail hr i hi'

/-- C4 witness: with the single well-behaved info, construction
succeeds, and the theorem instantiated there yields that its predicate
returned normally. -/
theorem c4_predicate_exception_propagates_witness :
    ∃ b, infoOk.is_active () = Except.ok b :=
  c4_predicate_exception_propagates [infoOk]
    [⟨⟨rootSlash [121]⟩, [120], [], some id, true⟩] rfl
    infoOk (List.mem_cons_self _ _)

/-- A top-level member of an imported module, as the scanner sees it:
whether it carries the `_IS_INTERFACE` marker, its `_NAME`, and its
docstring. -/
structure FuncInfo where
  is_interface : Bool
  name : PyStr
  doc : PyStr
deriving DecidableEq, Repr

/-- The result of `import_module` on one file: the module's members (in
`dir` order), or an `ImportError`, or any other exception raised by the
module's top-level code. -/
inductive ImportOutcome where
  | ok (funcs : List FuncInfo)
  | importError (msg : PyStr)
  | otherError (msg : PyStr)
deriving DecidableEq, Repr

/-- Whether an import outcome is an exception other than `ImportError`. -/
def isOtherError : ImportOutcome → Bool
  | .otherError _ => true
  | _ => false

/-- One Python file found by the glob: its path relative to the scanned
folder (suffix stripped, posix form) and what importing it does. -/
structure ModuleFile where
  path : PyStr
  imported : ImportOutcome
deriving DecidableEq, Repr

/-- The descriptor data `scan_interfaces` collects per tagged function:
`_NAME`, the file's relative path, and the docstring. -/
structure ScanEntry where
  name : PyStr
  path : PyStr
  description : PyStr
deriving DecidableEq, Repr

/-- The inner loop of `scan_interfaces` over one successfully imported
module: one entry per member carrying the `_IS_INTERFACE` marker. -/
def extract_interfaces (file : ModuleFile) (funcs : List FuncInfo) :
    List ScanEntry :=
  (funcs.filter fun f => f.is_interface).map fun f => ⟨f.name, file.path, f.doc⟩

/-- `scan_interfaces`: iterates over the globbed files; the `try` block
around the import catches `ImportError` only (logged, file skipped);
any other exception escapes the function. -/
def scan_interfaces : List ModuleFile → Except PyStr (List ScanEntry)
  | [] => .ok []
  | f :: rest =>
      match f.imported with
      | .ok funcs =>
          match scan_interfaces rest with
          | .error e => .error e
          | .ok tail => .ok (extract_interfaces f funcs ++ tail)
      | .importError _ => scan_interfaces rest
      | .otherError m => .error m

/-- A healthy module at relative path `"a"` with one tagged function. -/
def fHealthy1 : ModuleFile := ⟨[97], .ok [⟨true, [110], [100]⟩]⟩

/-- A module at `"b"` raising a non-`ImportError` exception on import. -/
def fBroken : ModuleFile := ⟨[98], .otherError [109]⟩

/-- A module at `"b"` raising `ImportError` on import. -/
def fImportBroken : ModuleFile := ⟨[98], .importError [109]⟩

/-- A healthy module at relative path `"c"` with one tagged function. -/
def fHealthy2 : ModuleFile := ⟨[99], .ok [⟨true, [110], [100]⟩]⟩

/-- C7 counterexample: when the middle of three modules raises an
exception that is not an `ImportError`, the scan aborts with that
exception instead of skipping the file and returning the two healthy
modules' descriptors. -/
theorem c7_scan_aborts_counterexample :
    scan_interfaces [fHealthy1, fBroken, fHealthy2] = Except.error [109] := rfl

/-- The descriptors of the modules that import successfully, in file
order — what a fault-tolerant scan would return. -/
def healthy_entries : List ModuleFile → List ScanEntry
  | [] => []
  | f :: rest =>
      (match f.imported with
        | .ok funcs => extract_interfaces f funcs
        | _ => []) ++ healthy_entries rest

/-- C7 (amended): `scan_interfaces` tolerates exactly `ImportError`:
when no file raises a different exception, the scan returns the
descriptors of all successfully imported modules, skipping the
`ImportError` files; a non-`ImportError` exception aborts the scan. -/
theorem c7_scan_skips_import_errors (files : List ModuleFile)
    (h : ∀ f ∈ files, isOtherError f.imported = false) :
    scan_interfaces files = .ok (healthy_entries files) := by
  induction files with
  | nil => rfl
  | cons f rest ih =>
      have hf := h f (List.mem_cons_self f rest)
      have ih' := ih fun g hg => h g (List.mem_cons_of_mem f hg)
      unfold scan_interfaces healthy_entries
      cases hi : f.imported with
      | ok funcs => rw [ih']
      | importError m => rw [ih']; simp
      | otherError m => rw [hi] at hf; exact absurd hf (by simp [isOtherError])

/-- C7 witness: with one `ImportError` module among two healthy ones,
the scan succeeds and returns exactly the two healthy modules'
descriptors. -/
theorem c7_scan_skips_import_errors_witness :
    scan_interfaces [fHealthy1, fImportBroken, fHealthy2]
      = .ok (healthy_entries [fHealthy1, fImportBroken, fHealthy2]) :=
  c7_scan_skips_import_errors [fHealthy1, fImportBroken, fHealthy2] (by decide)

/-- The process-global state the viewer's event handlers touch: the
current path, the working directory, and (for observing dispatch) the
ids whose callbacks have run, in order. -/
structure ViewerState where
  path : InterfacePath
  cwd : PyStr
  invoked : List PyStr

/-- The viewer's immutable data: its reference list and the working
directory captured at startup (`self.original_cwd = Path.cwd()`). -/
structure Viewer where
  references : List InterfaceReference
  original_cwd : PyStr

/-- `InterfaceViewer.select_reference`: a back item moves to the parent
path; otherwise the reference is looked up by item id; an inactive
reference returns without any effect; an active one sets the path,
resets the working directory to the startup directory, and (when a
callback exists) dispatches it — the callback runs from the reset
working directory and leaves behind whatever directory it ends in. -/
def select_reference (v : Viewer) (st : ViewerState) (itemId : PyStr) :
    ViewerState :=
  if itemId = backId then { st with path := st.path.parent }
  else
    match get_reference_by_id v.references itemId with
    | none => st
    | some r =>
        if r.active = false then st
        else
          match r.call_back with
          | some cb =>
              { path := r.path, cwd := cb v.original_cwd,
                invoked := st.invoked ++ [itemId] }
          | none => { st with path := r.path, cwd := v.original_cwd }

/-- `InterfaceViewer._open_reference_by_id` (the command-palette entry
point): remounts the tree view (which resets the path to root), looks
the reference up, and when found sets the current path to the
reference's parent and highlights its item — no callback runs here. -/
def open_reference_by_id (v : Viewer) (st : ViewerState) (rid : PyStr) :
    ViewerState :=
  match get_reference_by_id v.references rid with
  | none => { st with path := rootPath }
  | some r => { st with path := r.path.parent }

/-- `InterfaceViewer.get_system_commands`: the command palette offers
one command per reference that has a callback; a command's action is
`open_reference_by_id` at that reference's key. -/
def get_system_commands (v : Viewer) : List PyStr :=
  (v.references.filter fun r => r.call_back.isSome).map refId

/-- A reference at `"root/x/y"` with a callback that moves the working
directory to `"w"`. -/
def refXY : InterfaceReference :=
  ⟨⟨[114, 111, 111, 116, 47, 120, 47, 121]⟩, [110], [],
   some (fun _ => [119]), true⟩

/-- A viewer holding `refXY`, started in directory `"o"`. -/
def viewerXY : Viewer := ⟨[refXY], [111]⟩

/-- A state browsing `"root/z"` in directory `"o"`, nothing invoked. -/
def stZ : ViewerState := ⟨⟨[114, 111, 111, 116, 47, 122]⟩, [111], []⟩

/-- C6 counterexample: invoking `refXY` (a descriptor with a callback)
through the command palette from `"root/z"` leaves the set of invoked
callbacks empty — the callback is never called, so no action view is
entered; the palette only navigates to the descriptor's parent level
and highlights it. -/
theorem c6_palette_does_not_invoke_counterexample :
    (open_reference_by_id viewerXY stZ (refId refXY)).invoked = [] ∧
    refXY.call_back.isSome = true ∧
    (open_reference_by_id viewerXY stZ (refId refXY)).path
      = refXY.path.parent := by
  exact ⟨rfl, rfl, rfl⟩

/-- C6 (amended): a command-palette invocation of a descriptor does not
run its callback; it moves the current path to the descriptor's
`path.parent()` — regardless of what the current path was before — and
leaves the invocation record and working directory unchanged. -/
theorem c6_palette_navigates_to_parent (v : Viewer) (st : ViewerState)
    (rid : PyStr) (r : InterfaceReference)
    (h : get_reference_by_id v.references rid = some r) :
    (open_reference_by_id v st rid).path = r.path.parent ∧
    (open_reference_by_id v st rid).invoked = st.invoked ∧
    (open_reference_by_id v st rid).cwd = st.cwd := by
  unfold open_reference_by_id
  rw [h]
  exact ⟨rfl, rfl, rfl⟩

/-- C6 witness: instantiating the theorem on `viewerXY` from state
`stZ` (current path `"root/z"`): afterwards the path is `refXY`'s
parent `"root/x"` level and nothing was invoked. -/
theorem c6_palette_navigates_to_parent_witness :
    (open_reference_by_id viewerXY stZ (refId refXY)).path
      = refXY.path.parent ∧
    (open_reference_by_id viewerXY stZ (refId refXY)).invoked
      = stZ.invoked ∧
    (open_reference_by_id viewerXY stZ (refId refXY)).cwd = stZ.cwd :=
  c6_palette_navigates_to_parent viewerXY stZ (refId refXY) refXY rfl

/-- A state browsing at root in directory `"o"`, nothing invoked. -/
def stRoot : ViewerState := ⟨rootPath, [111], []⟩

/-- An active reference at `"root/x"` whose callback moves the working
directory to `"w"`. -/
def refCwd : InterfaceReference :=
  ⟨⟨[114, 111, 111, 116, 47, 120]⟩, [110], [],
   some (fun _ => [119]), true⟩

/-- A viewer holding `refCwd`, started in directory `"o"`. -/
def viewerCwd : Viewer := ⟨[refCwd], [111]⟩

/-- C5 counterexample: selecting `refCwd` — whose callback moves the
working directory to `"w"` — leaves the working directory at `"w"` when
control returns: it equals neither the directory in effect immediately
before the invocation (the startup directory the handler had just reset
to) nor the pre-selection state's directory. -/
theorem c5_cwd_not_restored_counterexample :
    (select_reference viewerCwd stRoot (refId refCwd)).cwd
        ≠ viewerCwd.original_cwd ∧
    (select_reference viewerCwd stRoot (refId refCwd)).cwd ≠ stRoot.cwd := by
  decide

/-- C5 (amended): the handler resets the working directory to the
startup directory immediately before dispatching a callback, so every
callback starts from `original_cwd`; on return nothing restores it —
the state keeps the directory the callback ended in. -/
theorem c5_cwd_reset_before_dispatch (v : Viewer) (st : ViewerState)
    (itemId : PyStr) (r : InterfaceReference) (cb : PyStr → PyStr)
    (hb : itemId ≠ backId)
    (h : get_reference_by_id v.references itemId = some r)
    (ha : r.active = true)
    (hcb : r.call_back = some cb) :
    select_reference v st itemId
      = { path := r.path, cwd := cb v.original_cwd,
          invoked := st.invoked ++ [itemId] } := by
  unfold select_reference
  rw [if_neg hb, h]
  simp [ha, hcb]

/-- C5 witness: selecting `refCwd` from the root state ends with the
callback's directory `"w"`, computed from the startup directory. -/
theorem c5_cwd_reset_before_dispatch_witness :
    select_reference viewerCwd stRoot (refId refCwd)
      = { path := refCwd.path,
          cwd := (fun _ => [119]) viewerCwd.original_cwd,
          invoked := stRoot.invoked ++ [refId refCwd] } :=
  c5_cwd_reset_before_dispatch viewerCwd stRoot (refId refCwd) refCwd
    (fun _ => [119]) (by decide) rfl rfl rfl

/-- An inactive reference at `"root/x"` that still has a callback. -/
def refInactive : InterfaceReference :=
  ⟨⟨[114, 111, 111, 116, 47, 120]⟩, [110], [],
   some (fun _ => [119]), false⟩

/-- A viewer holding `refInactive`, started in directory `"o"`. -/
def viewerInactive : Viewer := ⟨[refInactive], [111]⟩

/-- C8: selecting a reference whose stored `active` flag is false is a
no-op — the handler returns before touching the path, the working
directory, or the callback. -/
theorem c8_inactive_select_noop (v : Viewer) (st : ViewerState)
    (itemId : PyStr) (r : InterfaceReference)
    (hb : itemId ≠ backId)
    (h : get_reference_by_id v.references itemId = some r)
    (ha : r.active = false) :
    select_reference v st itemId = st := by
  unfold select_reference
  rw [if_neg hb, h]
  simp [ha]

/-- C8 witness: selecting the inactive `refInactive` from the root
state changes nothing. -/
theorem c8_inactive_select_noop_witness :
    select_reference viewerInactive stRoot (refId refInactive) = stRoot :=
  c8_inactive_select_noop viewerInactive stRoot (refId refInactive)
    refInactive (by decide) rfl rfl

end TfUtils
